import Mathlib

/-!
Verification of the room synchronization engine of the redhorse repository.

The definitions below are a shallow embedding of the client code in
src/components/GameRoom.tsx and src/components/Lobby.tsx over the data
model of src/types.ts.  Firebase keyed children (players/{uid},
rooms/{roomId}, rankings/{uid}) are modelled as association lists keyed
by the path segment; a Firebase update is a blind multi-location write
with no server-side precondition, and a Firebase runTransaction is a
read-modify-write of one child.  Numeric progress values are modelled
as rationals.
-/

namespace RedHorse

/-- Game lifecycle status, from src/types.ts (GameStatus). -/
inductive GameStatus where
  | waiting
  | starting
  | playing
  | finished
deriving DecidableEq, Repr

/-- Player record, from src/types.ts (Player). -/
structure Player where
  uid : String
  name : String
  photoURL : String
  progress : ℚ
  isReady : Bool
  score : Int
  horseColor : String
deriving DecidableEq, Repr

/-- Room record, from src/types.ts (Room).  The players map is an
association list keyed by the Firebase path segment. -/
structure Room where
  name : String
  hostId : String
  status : GameStatus
  players : List (String × Player)
  winnerId : Option String
  createdAt : Nat
deriving DecidableEq, Repr

/-- Ranking record, from src/types.ts (RankingEntry). -/
structure RankingEntry where
  uid : String
  name : String
  photoURL : String
  wins : Nat
  losses : Nat
  lastUpdated : Nat
deriving DecidableEq, Repr

/-- Read the child at key k of a Firebase-style keyed map. -/
def getChild {α : Type} (m : List (String × α)) (k : String) : Option α :=
  (m.find? (fun kv => kv.1 == k)).map (fun kv => kv.2)

/-- Overwrite the child at an existing key k, leaving other children unchanged. -/
def setChild {α : Type} (m : List (String × α)) (k : String) (v : α) : List (String × α) :=
  m.map (fun kv => if kv.1 == k then (kv.1, v) else kv)

/-- Rewrite the child at key k through f, leaving other children unchanged. -/
def modifyChild {α : Type} (m : List (String × α)) (k : String) (f : α → α) : List (String × α) :=
  m.map (fun kv => if kv.1 == k then (kv.1, f kv.2) else kv)

/-- Firebase remove on the child path rooted at key k. -/
def removeChild {α : Type} (m : List (String × α)) (k : String) : List (String × α) :=
  m.filter (fun kv => kv.1 != k)

/-- Firebase set at a fresh child path: a new child appears in the map. -/
def insertChild {α : Type} (m : List (String × α)) (k : String) (v : α) : List (String × α) :=
  m ++ [(k, v)]

/-- Error taxonomy for room reads. -/
inductive DbError where
  | notFound
deriving DecidableEq, Repr

/-- Read a room from the registry of rooms; absent rooms give notFound. -/
def getRoom (reg : List (String × Room)) (roomId : String) : Except DbError Room :=
  match getChild reg roomId with
  | some r => Except.ok r
  | none => Except.error DbError.notFound

/-- Fixed per-tap increment, 0.35, from GameRoom.tsx line 221. -/
def tapDelta : ℚ := 35 / 100

/-- The multi-location write computed by one client in handleTap:
the tapping uid, its new progress value, and whether the write also
sets status to finished and winnerId to the tapping uid. -/
structure TapUpdate where
  uid : String
  newProgress : ℚ
  claimWin : Bool
deriving DecidableEq, Repr

/-- Write the progress of the player child at key uid, from the update
path players/uid/progress. -/
def setProgress (ps : List (String × Player)) (uid : String) (v : ℚ) :
    List (String × Player) :=
  ps.map (fun kv => if kv.1 == uid then (kv.1, { kv.2 with progress := v }) else kv)

/-- Guard and update computation of handleTap, GameRoom.tsx lines 209-230,
evaluated against the tapping client's local snapshot snap.  Returns
none when the tap is dropped (wrong status, winner already seen locally,
or the tapping uid absent from the local snapshot). -/
def handleTap (snap : Room) (uid : String) : Option TapUpdate :=
  if snap.status ≠ GameStatus.playing ∨ snap.winnerId ≠ none then none
  else
    match getChild snap.players uid with
    | none => none
    | some currentPlayer =>
        let newProgress := min (currentPlayer.progress + tapDelta) 100
        some { uid := uid, newProgress := newProgress,
               claimWin := decide (100 ≤ newProgress) && (snap.winnerId == none) }

/-- Application of the write of one tap to the authoritative room state.
Firebase update writes the listed locations together, unconditionally:
there is no compare-and-set at apply time (GameRoom.tsx line 230). -/
def applyTapUpdate (room : Room) (u : TapUpdate) : Room :=
  let room' := { room with players := setProgress room.players u.uid u.newProgress }
  if u.claimWin then
    { room' with status := GameStatus.finished, winnerId := some u.uid }
  else room'

/-- A tap whose snapshot is the current authoritative state, i.e. the
serialized (no stale snapshot) execution of one tap. -/
def serialTap (room : Room) (uid : String) : Room :=
  match handleTap room uid with
  | none => room
  | some u => applyTapUpdate room u

/-- Identity fields a joining client contributes, from the auto-join
effect of GameRoom.tsx lines 60-75. -/
structure JoinRequest where
  uid : String
  name : String
  photoURL : String
  horseColor : String
deriving DecidableEq, Repr

/-- The player record written on join: progress 0, not ready, score 0
(GameRoom.tsx lines 65-73). -/
def joinPlayer (req : JoinRequest) : Player :=
  { uid := req.uid, name := req.name, photoURL := req.photoURL,
    progress := 0, isReady := false, score := 0, horseColor := req.horseColor }

/-- The auto-join effect, GameRoom.tsx lines 60-75: the player child is
written only if the uid is absent, the room holds fewer than 4 players
and the status is waiting; otherwise nothing is written. -/
def autoJoin (room : Room) (req : JoinRequest) : Room :=
  if (getChild room.players req.uid).isNone
      && decide (room.players.length < 4)
      && (room.status == GameStatus.waiting) then
    { room with players := insertChild room.players req.uid (joinPlayer req) }
  else room

/-- The raw startGame handler, GameRoom.tsx lines 204-207: an
unconditional status write. -/
def startGame (room : Room) : Room :=
  { room with status := GameStatus.starting }

/-- The readiness predicate of GameRoom.tsx line 293: at least one
player, and every player is ready or is the host. -/
def allReady (room : Room) : Bool :=
  decide (1 ≤ room.players.length)
    && room.players.all (fun kv => kv.2.isReady || kv.2.uid == room.hostId)

/-- The start button as rendered, GameRoom.tsx lines 345 and 364-371:
it exists only in status waiting for the host, and is disabled unless
allReady; a click then calls startGame. -/
def clickStart (room : Room) (uid : String) : Room :=
  if (room.status == GameStatus.waiting) && (room.hostId == uid) && allReady room then
    startGame room
  else room

/-- The resetGame handler, GameRoom.tsx lines 236-249: one update that
zeroes every present player's progress, clears every isReady, sets
status to waiting and winnerId to null. -/
def resetGame (room : Room) : Room :=
  { room with
    players := room.players.map
      (fun kv => (kv.1, { kv.2 with progress := 0, isReady := false })),
    status := GameStatus.waiting,
    winnerId := none }

/-- A non-host leave removes only that player child,
GameRoom.tsx lines 273-279. -/
def nonHostLeave (room : Room) (uid : String) : Room :=
  { room with players := removeChild room.players uid }

/-- The handleManualLeave handler, GameRoom.tsx lines 267-280, acting on
the registry of rooms: the host (confirming the dialog) removes the whole
room; any other uid removes only its own player child.  There is no
status check on either branch. -/
def handleManualLeave (reg : List (String × Room)) (roomId : String)
    (room : Room) (uid : String) : List (String × Room) :=
  if room.hostId == uid then removeChild reg roomId
  else modifyChild reg roomId (fun r => nonHostLeave r uid)

/-- The explicit delete button, GameRoom.tsx line 311: remove the room. -/
def deleteRoom (reg : List (String × Room)) (roomId : String) :
    List (String × Room) :=
  removeChild reg roomId

/-- The deferred onDisconnect cleanup, GameRoom.tsx lines 77-81: it is
registered only by the client whose uid is the host, and removes the
whole room; a non-host disconnect triggers no cleanup at all. -/
def onDisconnectCleanup (reg : List (String × Room)) (roomId : String)
    (room : Room) (clientUid : String) : List (String × Room) :=
  if room.hostId == clientUid then removeChild reg roomId else reg

/-- The countdown expiry of one client's interval, GameRoom.tsx lines
156-172: when the local countdown reaches zero, only the client whose
uid equals the host id writes status playing; every other client's
expiry writes nothing. -/
def countdownFire (room : Room) (clientUid : String) : Room :=
  if room.hostId == clientUid then { room with status := GameStatus.playing }
  else room

/-- The runTransaction body at rankings/p.uid, GameRoom.tsx lines 94-112:
create the entry on first write, otherwise increment wins or losses. -/
def applyRankingTxn (rk : List (String × RankingEntry)) (p : Player)
    (winnerId : String) (now : Nat) : List (String × RankingEntry) :=
  let isWinner := p.uid == winnerId
  match getChild rk p.uid with
  | none =>
      insertChild rk p.uid
        { uid := p.uid, name := p.name, photoURL := p.photoURL,
          wins := if isWinner then 1 else 0,
          losses := if isWinner then 0 else 1,
          lastUpdated := now }
  | some e =>
      setChild rk p.uid
        { e with
          wins := if isWinner then e.wins + 1 else e.wins,
          losses := if isWinner then e.losses else e.losses + 1,
          lastUpdated := now }

/-- The body of the record-result effect, GameRoom.tsx lines 88-113: one
ranking transaction per player currently in the room. -/
def recordResult (rk : List (String × RankingEntry)) (players : List Player)
    (winnerId : String) (now : Nat) : List (String × RankingEntry) :=
  players.foldl (fun acc p => applyRankingTxn acc p winnerId now) rk

/-- One client's record-result effect, GameRoom.tsx lines 84-117.  The
flag is that client's own hasRecordedResult React state: set when the
client records, cleared when the client observes status waiting.
Returns the new flag and the new rankings map. -/
def observeRoom (flag : Bool) (room : Room) (rk : List (String × RankingEntry))
    (now : Nat) : Bool × List (String × RankingEntry) :=
  if (room.status == GameStatus.finished) && room.winnerId.isSome && !flag then
    (true, recordResult rk (room.players.map (fun kv => kv.2))
      (room.winnerId.getD "") now)
  else if room.status == GameStatus.waiting then
    (false, rk)
  else
    (flag, rk)

/-- The progress invariant of the data model: every player child of the
room has progress inside the closed interval from 0 to 100. -/
def ProgressInv (room : Room) : Prop :=
  ∀ kv ∈ room.players, 0 ≤ kv.2.progress ∧ kv.2.progress ≤ 100

/-- Concrete host player used in test fixtures. -/
def pH : Player :=
  { uid := "H", name := "Hana", photoURL := "h", progress := 0,
    isReady := false, score := 0, horseColor := "gold" }

/-- Concrete player one tap from the finish line: 285 taps of 0.35 give
progress 99.75. -/
def pA : Player :=
  { uid := "A", name := "Alice", photoURL := "a", progress := 399/4,
    isReady := true, score := 0, horseColor := "red" }

/-- Concrete second player, also at progress 99.75. -/
def pB : Player :=
  { uid := "B", name := "Bob", photoURL := "b", progress := 399/4,
    isReady := true, score := 0, horseColor := "blue" }

/-- Concrete idle player, not ready. -/
def pIdle : Player :=
  { uid := "B", name := "Bob", photoURL := "b", progress := 0,
    isReady := false, score := 0, horseColor := "blue" }

/-- A room mid-race: status playing, no winner yet, both players at 99.75. -/
def raceRoom : Room :=
  { name := "R1", hostId := "A", status := GameStatus.playing,
    players := [("A", pA), ("B", pB)], winnerId := none, createdAt := 0 }

/-- A waiting room whose non-host player is not ready. -/
def lobbyRoom : Room :=
  { name := "L1", hostId := "H", status := GameStatus.waiting,
    players := [("H", pH), ("B", pIdle)], winnerId := none, createdAt := 0 }

/-- A room in its countdown phase, host H plus one non-host player. -/
def startingRoom : Room :=
  { name := "S1", hostId := "H", status := GameStatus.starting,
    players := [("H", pH), ("A", pA)], winnerId := none, createdAt := 0 }

/-- A finished room with recorded winner A. -/
def finishedRoom : Room :=
  { name := "F1", hostId := "A", status := GameStatus.finished,
    players := [("A", pA), ("B", pB)], winnerId := some "A", createdAt := 0 }

/-- The tap write computed by client A from the raceRoom snapshot. -/
def tapUpdA : TapUpdate := { uid := "A", newProgress := 100, claimWin := true }

/-- The tap write computed by client B from the raceRoom snapshot. -/
def tapUpdB : TapUpdate := { uid := "B", newProgress := 100, claimWin := true }

/-- A one-room registry fixture. -/
def regDemo : List (String × Room) := [("r1", raceRoom)]

/-- The desired identity fields of player A as a join request. -/
def reqA : JoinRequest :=
  { uid := "A", name := "Alice", photoURL := "a", horseColor := "red" }

/-- A join request for a fresh uid. -/
def reqC : JoinRequest :=
  { uid := "C", name := "Cleo", photoURL := "c", horseColor := "green" }

theorem getChild_removeChild_self {α : Type} (m : List (String × α)) (k : String) :
    getChild (removeChild m k) k = none := by
  unfold getChild removeChild
  rw [List.find?_eq_none.2]
  · rfl
  · intro kv hkv
    rcases List.mem_filter.1 hkv with ⟨-, h2⟩
    simpa [bne] using h2

theorem getChild_removeChild_ne {α : Type} (m : List (String × α)) (k k' : String)
    (h : k' ≠ k) : getChild (removeChild m k) k' = getChild m k' := by
  induction m with
  | nil => rfl
  | cons kv t ih =>
      unfold getChild removeChild at ih ⊢
      rw [List.filter_cons]
      by_cases h1 : kv.1 = k
      · have hdrop : ¬((kv.1 != k) = true) := by simp [bne, h1]
        have hhead : ¬(((fun kv => kv.1 == k') kv) = true) := by
          simp only [beq_iff_eq]
          exact fun hk => h (hk ▸ h1)
        rw [if_neg hdrop,
          show List.find? (fun kv => kv.1 == k') (kv :: t)
              = List.find? (fun kv => kv.1 == k') t from
            List.find?_cons_of_neg t hhead]
        exact ih
      · have hkeep : (kv.1 != k) = true := by simp [bne, h1]
        rw [if_pos hkeep]
        by_cases hh : (((fun kv => kv.1 == k') kv) = true)
        · rw [show List.find? (fun kv => kv.1 == k')
                (kv :: List.filter (fun kv => kv.1 != k) t) = some kv from
              List.find?_cons_of_pos _ hh,
            show List.find? (fun kv => kv.1 == k') (kv :: t) = some kv from
              List.find?_cons_of_pos t hh]
        · rw [show List.find? (fun kv => kv.1 == k')
                (kv :: List.filter (fun kv => kv.1 != k) t)
                = List.find? (fun kv => kv.1 == k')
                    (List.filter (fun kv => kv.1 != k) t) from
              List.find?_cons_of_neg _ hh,
            show List.find? (fun kv => kv.1 == k') (kv :: t)
                = List.find? (fun kv => kv.1 == k') t from
              List.find?_cons_of_neg t hh]
          exact ih

theorem getChild_mem {α : Type} {m : List (String × α)} {k : String} {v : α}
    (h : getChild m k = some v) : ∃ k', (k', v) ∈ m := by
  unfold getChild at h
  cases hf : m.find? (fun kv => kv.1 == k) with
  | none => rw [hf] at h; cases h
  | some kv =>
      rw [hf] at h
      have hm := List.mem_of_find?_eq_some hf
      have hv := Option.some.inj h
      exact ⟨kv.1, by rw [← hv]; simpa using hm⟩

theorem getRoom_removeChild (reg : List (String × Room)) (roomId : String) :
    getRoom (removeChild reg roomId) roomId = Except.error DbError.notFound := by
  simp [getRoom, getChild_removeChild_self]

theorem serialTap_noop (room : Room) (uid : String) (w : String)
    (h : room.winnerId = some w) : serialTap room uid = room := by
  unfold serialTap handleTap
  rw [if_pos]
  · exact Or.inr (by simp [h])

theorem handleTap_newProgress_eq (snap : Room) (uid : String) (u : TapUpdate)
    (hu : handleTap snap uid = some u) :
    ∃ p, getChild snap.players uid = some p ∧
      u.newProgress = min (p.progress + tapDelta) 100 := by
  unfold handleTap at hu
  by_cases hguard : snap.status ≠ GameStatus.playing ∨ snap.winnerId ≠ none
  · rw [if_pos hguard] at hu; cases hu
  · rw [if_neg hguard] at hu
    cases hg : getChild snap.players uid with
    | none => rw [hg] at hu; cases hu
    | some p =>
        rw [hg] at hu
        have h2 := Option.some.inj hu
        exact ⟨p, rfl, by rw [← h2]⟩

theorem handleTap_newProgress_bounds (snap : Room) (uid : String) (u : TapUpdate)
    (hs : ProgressInv snap) (hu : handleTap snap uid = some u) :
    0 ≤ u.newProgress ∧ u.newProgress ≤ 100 := by
  obtain ⟨p, hg, hnp⟩ := handleTap_newProgress_eq snap uid u hu
  obtain ⟨k, hk⟩ := getChild_mem hg
  have hp := hs _ hk
  refine ⟨?_, ?_⟩
  · rw [hnp]
    apply le_min
    · have hδ : (0:ℚ) ≤ tapDelta := by norm_num [tapDelta]
      linarith [hp.1]
    · norm_num
  · rw [hnp]
    exact min_le_right _ _

theorem progressInv_setProgress (ps : List (String × Player)) (uid : String) (v : ℚ)
    (h : ∀ kv ∈ ps, 0 ≤ kv.2.progress ∧ kv.2.progress ≤ 100)
    (hv : 0 ≤ v ∧ v ≤ 100) :
    ∀ kv ∈ setProgress ps uid v, 0 ≤ kv.2.progress ∧ kv.2.progress ≤ 100 := by
  intro kv hkv
  unfold setProgress at hkv
  rcases List.mem_map.1 hkv with ⟨kv', hkv', hf⟩
  by_cases hb : (kv'.1 == uid) = true
  · rw [if_pos hb] at hf
    rw [← hf]
    exact hv
  · rw [if_neg hb] at hf
    rw [← hf]
    exact h kv' hkv'

theorem progressInv_applyTapUpdate (snap room : Room) (uid : String) (u : TapUpdate)
    (hs : ProgressInv snap) (hr : ProgressInv room)
    (hu : handleTap snap uid = some u) :
    ProgressInv (applyTapUpdate room u) := by
  have hb := handleTap_newProgress_bounds snap uid u hs hu
  have hplayers : (applyTapUpdate room u).players
      = setProgress room.players u.uid u.newProgress := by
    unfold applyTapUpdate
    by_cases hc : u.claimWin = true
    · rw [if_pos hc]
    · rw [if_neg hc]
  intro kv hkv
  rw [hplayers] at hkv
  exact progressInv_setProgress room.players u.uid u.newProgress hr hb kv hkv

theorem progressInv_serialTap (room : Room) (uid : String)
    (hr : ProgressInv room) : ProgressInv (serialTap room uid) := by
  unfold serialTap
  cases hu : handleTap room uid with
  | none => exact hr
  | some u => exact progressInv_applyTapUpdate room room uid u hr hr hu

theorem progressInv_autoJoin (room : Room) (req : JoinRequest)
    (hr : ProgressInv room) : ProgressInv (autoJoin room req) := by
  unfold autoJoin
  by_cases hc : ((getChild room.players req.uid).isNone
      && decide (room.players.length < 4)
      && (room.status == GameStatus.waiting)) = true
  · rw [if_pos hc]
    intro kv hkv
    unfold insertChild at hkv
    rcases List.mem_append.1 hkv with h1 | h1
    · exact hr kv h1
    · rcases List.mem_singleton.1 h1 with rfl
      constructor <;> norm_num [joinPlayer]
  · rw [if_neg hc]
    exact hr

theorem progressInv_resetGame (room : Room) : ProgressInv (resetGame room) := by
  intro kv hkv
  unfold resetGame at hkv
  rcases List.mem_map.1 hkv with ⟨kv', -, hf⟩
  rw [← hf]
  norm_num

theorem handleTap_raceRoom_A : handleTap raceRoom "A" = some tapUpdA := by
  have hmin : min ((399:ℚ)/4 + 35/100) 100 = 100 := by
    rw [min_eq_right]
    norm_num
  simp [handleTap, raceRoom, getChild, pA, pB, tapDelta, tapUpdA, hmin]

theorem handleTap_raceRoom_B : handleTap raceRoom "B" = some tapUpdB := by
  have hmin : min ((399:ℚ)/4 + 35/100) 100 = 100 := by
    rw [min_eq_right]
    norm_num
  simp [handleTap, raceRoom, getChild, pA, pB, tapDelta, tapUpdB, hmin]

/-- Claim C1, counterexample: the winner write is not an atomic
compare-and-set guarded at apply time.  Both taps below are computed from
the same playing-room snapshot (winnerId unset), both pass the
client-side guard, and both are applied as blind multi-location writes:
the first records uid A as winnerId, the second overwrites winnerId with
uid B, so two distinct uids are recorded as winnerId within one game
cycle. -/
theorem winner_cas_counterexample :
    handleTap raceRoom "A" = some tapUpdA ∧
    handleTap raceRoom "B" = some tapUpdB ∧
    (applyTapUpdate raceRoom tapUpdA).status = GameStatus.finished ∧
    (applyTapUpdate raceRoom tapUpdA).winnerId = some "A" ∧
    (applyTapUpdate (applyTapUpdate raceRoom tapUpdA) tapUpdB).status
      = GameStatus.finished ∧
    (applyTapUpdate (applyTapUpdate raceRoom tapUpdA) tapUpdB).winnerId
      = some "B" ∧
    ("A" : String) ≠ "B" := by
  refine ⟨handleTap_raceRoom_A, handleTap_raceRoom_B, ?_, ?_, ?_, ?_, by decide⟩ <;>
    simp [applyTapUpdate, tapUpdA, tapUpdB]

/-- Claim C1, amended: the tap guard is evaluated against the tapping
client's local snapshot and the write is applied without any
compare-and-set, so two taps computed from stale snapshots can record two
different winners; but whenever taps are serialized — each tap observing
the current authoritative state — every tap issued after winnerId is set
is a complete no-op, so at most one uid is recorded as winnerId and the
status moves to finished at most once per cycle. -/
theorem winner_stable_under_serialized_taps (room : Room) (uids : List String)
    (w : String) (h : room.winnerId = some w) :
    List.foldl serialTap room uids = room := by
  induction uids with
  | nil => rfl
  | cons u t ih =>
      rw [List.foldl_cons, serialTap_noop room u w h]
      exact ih

/-- Witness for the amended claim C1 at a concrete finished room. -/
theorem winner_stable_under_serialized_taps_witness :
    List.foldl serialTap finishedRoom ["A", "B"] = finishedRoom :=
  winner_stable_under_serialized_taps finishedRoom ["A", "B"] "A" rfl

/-- Claim C2: the result-recorded gate is a per-client flag
(hasRecordedResult React state), not a per-room flag: every client
watching the room runs the recording effect once, so one finished cycle
observed by two clients (both flags false) makes the winner's wins
counter reach 2 and each loser's losses counter reach 2, where the claim
and the comment above the effect require exactly 1. -/
theorem leaderboard_double_record :
    (observeRoom false finishedRoom [] 1).1 = true ∧
    getChild (observeRoom false finishedRoom [] 1).2 "A" =
      some { uid := "A", name := "Alice", photoURL := "a",
             wins := 1, losses := 0, lastUpdated := 1 } ∧
    getChild (observeRoom false finishedRoom
        ((observeRoom false finishedRoom [] 1).2) 2).2 "A" =
      some { uid := "A", name := "Alice", photoURL := "a",
             wins := 2, losses := 0, lastUpdated := 2 } ∧
    getChild (observeRoom false finishedRoom
        ((observeRoom false finishedRoom [] 1).2) 2).2 "B" =
      some { uid := "B", name := "Bob", photoURL := "b",
             wins := 0, losses := 2, lastUpdated := 2 } := by
  refine ⟨rfl, rfl, rfl, rfl⟩

/-- Claim C3, counterexample: the countdown is not server-owned.  The
expiry of a non-host client's local countdown writes nothing, and the
host's registered onDisconnect cleanup removes the whole room, so with
the host disconnected mid-countdown the starting→playing transition
never fires. -/
theorem countdown_not_server_owned_counterexample :
    startingRoom.status = GameStatus.starting ∧
    countdownFire startingRoom "A" = startingRoom ∧
    (countdownFire startingRoom "A").status ≠ GameStatus.playing ∧
    getRoom (onDisconnectCleanup [("r1", startingRoom)] "r1" startingRoom "H")
      "r1" = Except.error DbError.notFound := by
  exact ⟨rfl, rfl, by decide, rfl⟩

/-- Claim C3, amended: the starting→playing transition is driven by the
host client's local countdown timer, not by a server-side room process:
a countdown expiry on the host's client sets status to playing, and an
expiry on any other client changes nothing, so the transition never
fires once the host disconnects (whose onDisconnect then removes the
room). -/
theorem countdown_fires_only_on_host_client (room : Room) (uid : String) :
    (uid = room.hostId →
      countdownFire room uid = { room with status := GameStatus.playing }) ∧
    (uid ≠ room.hostId → countdownFire room uid = room) := by
  constructor
  · intro h
    unfold countdownFire
    rw [if_pos (by simp [h])]
  · intro h
    unfold countdownFire
    rw [if_neg]
    simp only [beq_iff_eq]
    exact fun hh => h hh.symm

/-- Witness for the amended claim C3: in the concrete countdown room the
host expiry fires the transition and a non-host expiry is a no-op. -/
theorem countdown_fires_only_on_host_client_witness :
    countdownFire startingRoom "H"
      = { startingRoom with status := GameStatus.playing } ∧
    countdownFire startingRoom "A" = startingRoom :=
  ⟨(countdown_fires_only_on_host_client startingRoom "H").1 rfl,
   (countdown_fires_only_on_host_client startingRoom "A").2 (by decide)⟩

/-- Claim C4: the host leaving — explicit leave, explicit delete, or the
registered onDisconnect cleanup — removes the whole room regardless of
its status, and a subsequent room read fails with notFound. -/
theorem host_leave_destroys_room (reg : List (String × Room)) (roomId : String)
    (room : Room) (uid : String) (h : room.hostId = uid) :
    getRoom (handleManualLeave reg roomId room uid) roomId
      = Except.error DbError.notFound ∧
    getRoom (deleteRoom reg roomId) roomId = Except.error DbError.notFound ∧
    getRoom (onDisconnectCleanup reg roomId room uid) roomId
      = Except.error DbError.notFound := by
  refine ⟨?_, ?_, ?_⟩
  · unfold handleManualLeave
    rw [if_pos (by simp [h])]
    exact getRoom_removeChild reg roomId
  · exact getRoom_removeChild reg roomId
  · unfold onDisconnectCleanup
    rw [if_pos (by simp [h])]
    exact getRoom_removeChild reg roomId

/-- Witness for claim C4 on a concrete mid-game room: the host of
raceRoom leaves and every read of the room then fails. -/
theorem host_leave_destroys_room_witness :
    getRoom (handleManualLeave regDemo "r1" raceRoom "A") "r1"
      = Except.error DbError.notFound ∧
    getRoom (deleteRoom regDemo "r1") "r1" = Except.error DbError.notFound ∧
    getRoom (onDisconnectCleanup regDemo "r1" raceRoom "A") "r1"
      = Except.error DbError.notFound :=
  host_leave_destroys_room regDemo "r1" raceRoom "A" rfl

/-- Claim C5, counterexample: an explicit leave by the non-host B while
the room status is playing removes B's player child from the room — the
entry is not left frozen as the claim states. -/
theorem nonhost_midgame_leave_counterexample :
    raceRoom.status = GameStatus.playing ∧
    getChild raceRoom.players "B" = some pB ∧
    handleManualLeave [("r1", raceRoom)] "r1" raceRoom "B"
      = [("r1", { raceRoom with players := [("A", pA)] })] ∧
    getChild ({ raceRoom with players := [("A", pA)] }).players "B" = none := by
  exact ⟨rfl, rfl, rfl, rfl⟩

/-- Claim C5, amended: a non-host explicit leave removes exactly that
player's child at every status (mid-game included), leaving every other
player child, the status and the winner unchanged; only a non-host who
disconnects without an explicit leave is frozen in place, because no
onDisconnect cleanup is registered for non-hosts. -/
theorem nonhost_leave_removes_only_own_entry (reg : List (String × Room))
    (roomId : String) (room r : Room) (uid k : String) (h : room.hostId ≠ uid) :
    handleManualLeave reg roomId room uid
      = modifyChild reg roomId (fun x => nonHostLeave x uid) ∧
    (nonHostLeave r uid).status = r.status ∧
    (nonHostLeave r uid).winnerId = r.winnerId ∧
    getChild (nonHostLeave r uid).players uid = none ∧
    (k ≠ uid → getChild (nonHostLeave r uid).players k = getChild r.players k) ∧
    onDisconnectCleanup reg roomId room uid = reg := by
  refine ⟨?_, rfl, rfl, ?_, ?_, ?_⟩
  · unfold handleManualLeave
    rw [if_neg (by simp only [beq_iff_eq]; exact h)]
  · exact getChild_removeChild_self r.players uid
  · intro hk
    exact getChild_removeChild_ne r.players uid k hk
  · unfold onDisconnectCleanup
    rw [if_neg (by simp only [beq_iff_eq]; exact h)]

/-- Witness for the amended claim C5 on the concrete mid-game room. -/
theorem nonhost_leave_removes_only_own_entry_witness :
    handleManualLeave [("r1", raceRoom)] "r1" raceRoom "B"
      = modifyChild [("r1", raceRoom)] "r1" (fun x => nonHostLeave x "B") ∧
    (nonHostLeave raceRoom "B").status = raceRoom.status ∧
    (nonHostLeave raceRoom "B").winnerId = raceRoom.winnerId ∧
    getChild (nonHostLeave raceRoom "B").players "B" = none ∧
    getChild (nonHostLeave raceRoom "B").players "A" = getChild raceRoom.players "A" ∧
    onDisconnectCleanup [("r1", raceRoom)] "r1" raceRoom "B" = [("r1", raceRoom)] := by
  obtain ⟨h1, h2, h3, h4, h5, h6⟩ :=
    nonhost_leave_removes_only_own_entry [("r1", raceRoom)] "r1" raceRoom
      raceRoom "B" "A" (by decide)
  exact ⟨h1, h2, h3, h4, h5 (by decide), h6⟩

/-- Claim C6: the waiting→starting transition through the rendered start
button happens only when the room has at least one player and every
non-host player is ready (the host is exempt from the readiness check);
when allReady is false the click changes nothing. -/
theorem start_game_guard (room : Room) (uid : String) :
    (allReady room = false → clickStart room uid = room) ∧
    (clickStart room uid ≠ room →
      1 ≤ room.players.length ∧
      (∀ kv ∈ room.players, kv.2.uid = room.hostId ∨ kv.2.isReady = true) ∧
      clickStart room uid = { room with status := GameStatus.starting }) := by
  constructor
  · intro h
    unfold clickStart
    rw [if_neg (by simp [h])]
  · intro hne
    by_cases hc : ((room.status == GameStatus.waiting) && (room.hostId == uid)
        && allReady room) = true
    · have hstart : clickStart room uid = startGame room := by
        unfold clickStart
        rw [if_pos hc]
      have hc2 := hc
      simp only [Bool.and_eq_true] at hc2
      have hall : allReady room = true := hc2.2
      unfold allReady at hall
      simp only [Bool.and_eq_true] at hall
      obtain ⟨hlen, hevery⟩ := hall
      refine ⟨of_decide_eq_true hlen, ?_, hstart⟩
      intro kv hkv
      have hall2 := List.all_eq_true.mp hevery kv hkv
      simp only [Bool.or_eq_true] at hall2
      rcases hall2 with h1 | h1
      · exact Or.inr h1
      · exact Or.inl (beq_iff_eq.mp h1)
    · refine absurd ?_ hne
      unfold clickStart
      rw [if_neg hc]

/-- Witness for claim C6: in the concrete waiting room with a non-ready
player, the host click leaves the room unchanged. -/
theorem start_game_guard_witness : clickStart lobbyRoom "H" = lobbyRoom :=
  (start_game_guard lobbyRoom "H").1 rfl

/-- Claim C7: every progress value stays inside the interval from 0 to
100 across every progress-writing operation — applying a tap write
computed from any in-range snapshot (the written value is the clamp
min of snapshot progress plus the fixed 0.35 increment against 100), a
serialized tap, a join (which writes progress 0) and a reset (which
writes progress 0). -/
theorem progress_within_bounds (snap room : Room) (uid : String) (u : TapUpdate)
    (req : JoinRequest) (hs : ProgressInv snap) (hr : ProgressInv room)
    (hu : handleTap snap uid = some u) :
    ProgressInv (applyTapUpdate room u) ∧
    ProgressInv (serialTap room uid) ∧
    ProgressInv (autoJoin room req) ∧
    ProgressInv (resetGame room) :=
  ⟨progressInv_applyTapUpdate snap room uid u hs hr hu,
   progressInv_serialTap room uid hr,
   progressInv_autoJoin room req hr,
   progressInv_resetGame room⟩

theorem raceRoom_progressInv : ProgressInv raceRoom := by
  intro kv hkv
  simp only [raceRoom, List.mem_cons, List.not_mem_nil, or_false] at hkv
  rcases hkv with rfl | rfl <;> norm_num [pA, pB]

/-- Witness for claim C7 on the concrete mid-race room and the concrete
winning tap of player A. -/
theorem progress_within_bounds_witness :
    ProgressInv (applyTapUpdate raceRoom tapUpdA) ∧
    ProgressInv (serialTap raceRoom "A") ∧
    ProgressInv (autoJoin raceRoom reqC) ∧
    ProgressInv (resetGame raceRoom) :=
  progress_within_bounds raceRoom raceRoom "A" tapUpdA reqC
    raceRoom_progressInv raceRoom_progressInv handleTap_raceRoom_A

theorem autoJoin_length_le (room : Room) (req : JoinRequest)
    (h : room.players.length ≤ 4) : (autoJoin room req).players.length ≤ 4 := by
  unfold autoJoin
  by_cases hc : ((getChild room.players req.uid).isNone
      && decide (room.players.length < 4)
      && (room.status == GameStatus.waiting)) = true
  · rw [if_pos hc]
    have hc2 := hc
    simp only [Bool.and_eq_true] at hc2
    have hlt := of_decide_eq_true hc2.1.2
    simp only [insertChild, List.length_append, List.length_singleton]
    omega
  · rw [if_neg hc]
    exact h

theorem joinSeq_length_le (reqs : List JoinRequest) :
    ∀ room : Room, room.players.length ≤ 4 →
      ((List.foldl autoJoin room reqs).players).length ≤ 4 := by
  induction reqs with
  | nil => exact fun room h => h
  | cons q t ih =>
      intro room h
      rw [List.foldl_cons]
      exact ih _ (autoJoin_length_le room q h)

/-- Claim C8: starting from a room with at most 4 players, no sequence
of joins ever pushes the player count above 4, and a join changes the
room only when the uid is absent, the count is below 4 and the status is
waiting. -/
theorem join_capacity (room : Room) (reqs : List JoinRequest) (req : JoinRequest)
    (h : room.players.length ≤ 4) :
    ((List.foldl autoJoin room reqs).players).length ≤ 4 ∧
    (autoJoin room req ≠ room →
      getChild room.players req.uid = none ∧
      room.players.length < 4 ∧
      room.status = GameStatus.waiting) := by
  constructor
  · exact joinSeq_length_le reqs room h
  · intro hne
    by_cases hc : ((getChild room.players req.uid).isNone
        && decide (room.players.length < 4)
        && (room.status == GameStatus.waiting)) = true
    · have hc2 := hc
      simp only [Bool.and_eq_true] at hc2
      exact ⟨Option.isNone_iff_eq_none.mp hc2.1.1, of_decide_eq_true hc2.1.2,
        beq_iff_eq.mp hc2.2⟩
    · refine absurd ?_ hne
      unfold autoJoin
      rw [if_neg hc]

/-- Witness for claim C8 on the concrete waiting room. -/
theorem join_capacity_witness :
    ((List.foldl autoJoin lobbyRoom [reqC]).players).length ≤ 4 ∧
    (autoJoin lobbyRoom reqC ≠ lobbyRoom →
      getChild lobbyRoom.players reqC.uid = none ∧
      lobbyRoom.players.length < 4 ∧
      lobbyRoom.status = GameStatus.waiting) :=
  join_capacity lobbyRoom [reqC] reqC (by decide)

/-- Claim C9: a join by a uid already present in the room writes nothing
at all — the room (entries, progress, readiness) is left unchanged, and
this is not an error. -/
theorem join_idempotent (room : Room) (req : JoinRequest) (q : Player)
    (h : getChild room.players req.uid = some q) :
    autoJoin room req = room := by
  unfold autoJoin
  rw [if_neg]
  intro hc
  simp only [Bool.and_eq_true] at hc
  have h4 := hc.1.1
  rw [h] at h4
  simp at h4

/-- Witness for claim C9: a second join of the already-present uid A is
the identity on the concrete room. -/
theorem join_idempotent_witness : autoJoin raceRoom reqA = raceRoom :=
  join_idempotent raceRoom reqA pA rfl

/-- Claim C10: resetGame sets the status to waiting, clears winnerId,
and touches only the progress and isReady fields of each present player
(setting them to 0 and false): the key set, each player's uid, name,
photoURL, score and horseColor, the host, the room name and createdAt
are all unchanged, and no player child is added or removed. -/
theorem reset_game_frame (room : Room) :
    (resetGame room).status = GameStatus.waiting ∧
    (resetGame room).winnerId = none ∧
    (resetGame room).hostId = room.hostId ∧
    (resetGame room).name = room.name ∧
    (resetGame room).createdAt = room.createdAt ∧
    (resetGame room).players.length = room.players.length ∧
    (resetGame room).players.map (fun kv => kv.1)
      = room.players.map (fun kv => kv.1) ∧
    (resetGame room).players.map (fun kv => kv.2.uid)
      = room.players.map (fun kv => kv.2.uid) ∧
    (resetGame room).players.map (fun kv => kv.2.name)
      = room.players.map (fun kv => kv.2.name) ∧
    (resetGame room).players.map (fun kv => kv.2.photoURL)
      = room.players.map (fun kv => kv.2.photoURL) ∧
    (resetGame room).players.map (fun kv => kv.2.score)
      = room.players.map (fun kv => kv.2.score) ∧
    (resetGame room).players.map (fun kv => kv.2.horseColor)
      = room.players.map (fun kv => kv.2.horseColor) ∧
    (resetGame room).players.map (fun kv => kv.2.progress)
      = room.players.map (fun _ => (0:ℚ)) ∧
    (resetGame room).players.map (fun kv => kv.2.isReady)
      = room.players.map (fun _ => false) := by
  refine ⟨rfl, rfl, rfl, rfl, rfl, ?_, ?_, ?_, ?_, ?_, ?_, ?_, ?_, ?_⟩ <;>
    simp only [resetGame, List.map_map, List.length_map] <;> rfl

end RedHorse
